import Mathlib

/-!
# Wallets: address chart and debit / confirm-hold handlers

Shallow embedding of

* `pkg/core/chart.go` (`Address.String`, `Chart.BasePath`, `Chart.GetMainAccount`,
  `Chart.GetHoldAccount`),
* `pkg/api/handler_wallets_debit.go` (`MainHandler.DebitWalletHandler`),
* the confirm-hold flow exercised by `pkg/api/handler_holds_confirm_test.go`.

Go strings are modelled by `String`. The two library calls used by the chart, `strings.Join`
and `strings.Replace`, act on the ASCII bytes ':' and '-', which never occur inside a multi-byte
UTF-8 sequence, so working on characters agrees with working on bytes.
-/

namespace strings

/-- Go `strings.Join(elems, sep)`: the first element, then `sep` and the next element for
every further element; the empty string for no elements. -/
def Join : List String → String → String
  | [], _ => ""
  | e :: es, sep => es.foldl (fun b s => b ++ sep ++ s) e

/-- Go `strings.Replace` with an empty `old`: `new` is inserted at the start of the string and
after every character, at most `n` times when `n ≥ 0`. -/
def insertAtBoundaries (new : List Char) : Int → List Char → List Char
  | n, [] => if n = 0 then [] else new
  | n, c :: cs => if n = 0 then c :: cs else new ++ c :: insertAtBoundaries new (n - 1) cs

/-- Go `strings.Replace` with a non-empty `old`: scan left to right, replacing each
non-overlapping occurrence of `old` by `new` while the budget `n` is not zero (a negative `n`
never reaches zero). The fuel is the length of the input, which bounds the number of steps. -/
def replaceFrom (old new : List Char) : Nat → Int → List Char → List Char
  | 0, _, s => s
  | _ + 1, _, [] => []
  | fuel + 1, n, c :: cs =>
    if n = 0 then c :: cs
    else if old.isPrefixOf (c :: cs) then
      new ++ replaceFrom old new fuel (n - 1) ((c :: cs).drop old.length)
    else c :: replaceFrom old new fuel n cs

/-- Go `strings.Replace(s, old, new, n)`. -/
def Replace (s old new : String) (n : Int) : String :=
  if old.data = [] then ⟨insertAtBoundaries new.data n s.data⟩
  else ⟨replaceFrom old.data new.data s.data.length n s.data⟩

end strings

/-- Go `type Address []string`. -/
abbrev Address := List String

/-- Go `func (addr Address) String() string`. -/
def Address.String (addr : Address) : String :=
  let s := strings.Join addr ":"
  let s := strings.Replace s "-" "" (-1)
  s

/-- Go `type Chart struct { Prefix string }`. -/
structure Chart where
  Prefix : String
deriving DecidableEq

/-- Go `func NewChart(prefix string) *Chart`. -/
def NewChart (pfx : String) : Chart := { Prefix := pfx }

/-- Go `func (c *Chart) BasePath() Address`. -/
def Chart.BasePath (c : Chart) : Address :=
  let addr : Address := []
  let addr := if c.Prefix ≠ "" then addr ++ [c.Prefix] else addr
  let addr := addr ++ ["wallets"]
  addr

/-- Go `func (c *Chart) GetMainAccount(walletId string) string`. -/
def Chart.GetMainAccount (c : Chart) (walletId : String) : String :=
  let addr := c.BasePath
  let addr := addr ++ [walletId, "main"]
  Address.String addr

/-- Go `func (c *Chart) GetHoldAccount(holdId string) string`. -/
def Chart.GetHoldAccount (c : Chart) (holdId : String) : String :=
  let addr := c.BasePath
  let addr := addr ++ ["holds"]
  let addr := addr ++ [holdId]
  Address.String addr

/-- Spec wording "all its hyphens stripped": the string without its '-' characters. -/
def stripHyphens (s : String) : String := ⟨s.data.filter (fun c => c ≠ '-')⟩

/-- Spec wording of rule (4) for one segment: "every literal occurrence of the separator
character inside a segment removed", the separator being ':'. -/
def stripSeparator (s : String) : String := ⟨s.data.filter (fun c => c ≠ ':')⟩

/-- Spec wording of rule (4): the segments, each without its separator characters, joined by
the separator. -/
def joinStrippedOfSeparator (addr : Address) : String :=
  strings.Join (addr.map stripSeparator) ":"

/-- Spec wording of rules (1)-(2): the segments of a main-account address. -/
def mainSegments (pfx walletId : String) : List String :=
  (if pfx = "" then [] else [pfx]) ++ ["wallets", walletId, "main"]

/-- Spec wording of rules (1) and (3): the segments of a hold-account address. -/
def holdSegments (pfx holdId : String) : List String :=
  (if pfx = "" then [] else [pfx]) ++ ["wallets", "holds", holdId]

/-! ## Errors and the debit handler (`pkg/api/handler_wallets_debit.go`) -/

/-- Go `error` values as far as `errors.Is` tells them apart: a sentinel (a package-level error
variable, identified by its name) or an error wrapping another one, as built by
`fmt.Errorf("...: %w", err)`. -/
inductive GoError where
  | sentinel (name : String)
  | wrap (msg : String) (inner : GoError)
deriving DecidableEq

namespace errors

/-- Go `errors.Is(err, target)`: true when `err` equals `target`, else the same test on what
`err` wraps, false at the end of the chain. -/
def Is : GoError → GoError → Bool
  | .sentinel name, target => decide (GoError.sentinel name = target)
  | .wrap msg inner, target => decide (GoError.wrap msg inner = target) || Is inner target

end errors

/-- Claim wording "the error is or wraps the target": the target is reached from the error by
unwrapping zero or more times. -/
inductive IsOrWraps (target : GoError) : GoError → Prop where
  | is : IsOrWraps target target
  | wraps (msg : String) {inner : GoError} : IsOrWraps target inner →
      IsOrWraps target (.wrap msg inner)

namespace wallet

/-- Modelled from the spec: the package-level error `wallet.ErrInsufficientFundError` is declared
elsewhere in the repository; it is the sentinel of the "insufficient funds" condition. -/
def ErrInsufficientFundError : GoError := .sentinel "wallet.ErrInsufficientFundError"

/-- Go `wallet.Debit` as built by the handler: the wallet ID and the bound request. The type of
the request body, `wallet.DebitRequest`, is declared elsewhere in the repository and is a
parameter. -/
structure Debit (DebitRequest : Type) where
  WalletID : String
  DebitRequest : DebitRequest

end wallet

/-- Modelled from the spec: the error codes `ErrorCodeValidation` and
`ErrorCodeInsufficientFund` are constants declared elsewhere in the repository; the spec has the
insufficient-funds condition "surfaced distinctly from generic validation", so they are two
different values. -/
inductive ErrorCode where
  | validation
  | insufficientFund
deriving DecidableEq

/-- The constant `ErrorCodeValidation` of package `api`. -/
def ErrorCodeValidation : ErrorCode := .validation

/-- The constant `ErrorCodeInsufficientFund` of package `api`. -/
def ErrorCodeInsufficientFund : ErrorCode := .insufficientFund

/-- One call of a response helper of package `api` on the `http.ResponseWriter`. The helpers
are declared elsewhere in the repository; per the spec `noContent` answers `204 No Content` and
`created` answers `201 Created` with its argument as body, `badRequest` answers with the given
error code and error, `internalError` with the internal-error response. -/
inductive Written (Hold : Type) where
  | badRequest (code : ErrorCode) (err : GoError)
  | internalError (err : GoError)
  | noContent
  | created (v : Hold)
deriving DecidableEq

/-- The `http.ResponseWriter`, as the sequence of helper calls made on it so far. -/
abbrev ResponseWriter (Hold : Type) := List (Written Hold)

/-- Go `badRequest(w, code, err)`. -/
def badRequest {Hold : Type} (w : ResponseWriter Hold) (code : ErrorCode) (err : GoError) :
    ResponseWriter Hold := w ++ [.badRequest code err]

/-- Go `internalError(w, r, err)`. -/
def internalError {Hold : Type} (w : ResponseWriter Hold) (err : GoError) :
    ResponseWriter Hold := w ++ [.internalError err]

/-- Go `noContent(w)`. -/
def noContent {Hold : Type} (w : ResponseWriter Hold) : ResponseWriter Hold := w ++ [.noContent]

/-- Go `created(w, v)`. -/
def created {Hold : Type} (w : ResponseWriter Hold) (v : Hold) : ResponseWriter Hold :=
  w ++ [.created v]

/-- The part of `*http.Request` the handler reads: the URL parameters set by the router and the
body. -/
structure Request where
  URLParams : List (String × String)
  Body : String
deriving DecidableEq

namespace chi

/-- Go `chi.URLParam(r, key)`: the URL parameter of that name, the empty string when absent. -/
def URLParam (r : Request) (key : String) : String := (r.URLParams.lookup key).getD ""

end chi

/-- Go `m.funding`: its `Debit` method returns a hold pointer (nil or not) and an error (nil or
not). -/
structure Funding (DebitRequest Hold : Type) where
  Debit : wallet.Debit DebitRequest → Option Hold × Option GoError

/-- Go `MainHandler`, with the one field the debit handler uses. `Bind` stands for
`render.Bind(r, data)` on a fresh `wallet.DebitRequest`: the bound request or the error. -/
structure MainHandler (DebitRequest Hold : Type) where
  funding : Funding DebitRequest Hold
  Bind : Request → Except GoError DebitRequest

/-- Go `func (m *MainHandler) DebitWalletHandler(w http.ResponseWriter, r *http.Request)`. -/
def MainHandler.DebitWalletHandler {DebitRequest Hold : Type} (m : MainHandler DebitRequest Hold)
    (w : ResponseWriter Hold) (r : Request) : ResponseWriter Hold :=
  match m.Bind r with
  | .error err => badRequest w ErrorCodeValidation err
  | .ok data =>
    match m.funding.Debit { WalletID := chi.URLParam r "walletID", DebitRequest := data } with
    | (_, some err) =>
      if errors.Is err wallet.ErrInsufficientFundError then
        badRequest w ErrorCodeInsufficientFund wallet.ErrInsufficientFundError
      else
        internalError w err
    | (hold, none) =>
      match hold with
      | none => noContent w
      | some hold => created w hold

/-- A handler instance for evaluation: the body is the bound request; the funding service turns
"pending" into a hold named after the wallet, fails "too-much" with a wrapped
`wallet.ErrInsufficientFundError`, fails "boom" with another error and debits anything else
at once. -/
def sampleHandler : MainHandler String String where
  Bind := fun r => if r.Body = "" then .error (.sentinel "EOF") else .ok r.Body
  funding :=
    { Debit := fun d =>
        if d.DebitRequest = "pending" then (some ("hold-of-" ++ d.WalletID), none)
        else if d.DebitRequest = "too-much" then
          (none, some (.wrap "running script" wallet.ErrInsufficientFundError))
        else if d.DebitRequest = "boom" then (none, some (.sentinel "boom"))
        else (none, none) }

/-- A request on wallet "w1" with the given body. -/
def sampleRequest (body : String) : Request := { URLParams := [("walletID", "w1")], Body := body }

/-! ## The confirm-hold operation (`pkg/api/handler_holds_confirm_test.go`) -/

theorem replaceFrom_hyphen (fuel : Nat) (n : Int) (hn : n < 0) (s : List Char)
    (hs : s.length ≤ fuel) :
    strings.replaceFrom ['-'] [] fuel n s = s.filter (fun c => c ≠ '-') := by
  induction fuel generalizing n s with
  | zero =>
    have : s = [] := List.length_eq_zero.mp (Nat.le_zero.mp hs)
    subst this
    simp [strings.replaceFrom]
  | succ k ih =>
    cases s with
    | nil => simp [strings.replaceFrom]
    | cons c cs =>
      have hcs : cs.length ≤ k := by simpa using hs
      have hn0 : n ≠ 0 := by omega
      by_cases hc : c = '-'
      · subst hc
        simp [strings.replaceFrom, hn0, List.isPrefixOf, ih (n - 1) (by omega) cs hcs]
      · have hc' : ('-' == c) = false := by
          simp [beq_iff_eq]; exact fun h => hc h.symm
        simp [strings.replaceFrom, hn0, List.isPrefixOf, hc', hc, ih n hn cs hcs]

theorem Replace_hyphen (s : String) : strings.Replace s "-" "" (-1) = stripHyphens s := by
  have h : ("-" : String).data = ['-'] := rfl
  have h2 : ("" : String).data = [] := rfl
  simp only [strings.Replace, h, h2, stripHyphens]
  rw [if_neg (by simp)]
  rw [replaceFrom_hyphen _ _ (by decide) _ (le_refl _)]

theorem Join_foldl_data (sep : String) (es : List String) (e : String) :
    (es.foldl (fun b s => b ++ sep ++ s) e).data
      = e.data ++ (es.map (fun s => sep.data ++ s.data)).flatten := by
  induction es generalizing e with
  | nil => simp
  | cons x xs ih => simp [ih, String.data_append, List.append_assoc]

theorem Join_cons_cons (e e' : String) (es : List String) (sep : String) :
    strings.Join (e :: e' :: es) sep = e ++ sep ++ strings.Join (e' :: es) sep := by
  apply String.ext
  simp [strings.Join, Join_foldl_data, String.data_append, List.append_assoc]

theorem stripHyphens_append (a b : String) :
    stripHyphens (a ++ b) = stripHyphens a ++ stripHyphens b := by
  apply String.ext
  simp [stripHyphens, String.data_append]

theorem stripHyphens_Join (addr : List String) :
    stripHyphens (strings.Join addr ":") = strings.Join (addr.map stripHyphens) ":" := by
  induction addr with
  | nil => rfl
  | cons e es ih =>
    cases es with
    | nil => rfl
    | cons e' es' =>
      rw [Join_cons_cons, stripHyphens_append, stripHyphens_append, ih]
      simp only [List.map_cons] 
      rw [Join_cons_cons]
      rfl

theorem Address_String_eq (addr : Address) :
    Address.String addr = strings.Join (addr.map stripHyphens) ":" := by
  simp only [Address.String, Replace_hyphen, stripHyphens_Join]

theorem last_segment_inj (X Y a b : List Char) (ha : ':' ∉ a) (hb : ':' ∉ b)
    (h : X ++ ':' :: a = Y ++ ':' :: b) : X = Y ∧ a = b := by
  induction X generalizing Y with
  | nil =>
    cases Y with
    | nil => simpa using h
    | cons y Y' =>
      simp only [List.nil_append, List.cons_append, List.cons.injEq] at h
      exact absurd (h.2 ▸ (by simp : ':' ∈ Y' ++ ':' :: b)) ha
  | cons x X' ih =>
    cases Y with
    | nil =>
      simp only [List.nil_append, List.cons_append, List.cons.injEq] at h
      exact absurd (h.2 ▸ (by simp : ':' ∈ X' ++ ':' :: a)) hb
    | cons y Y' =>
      simp only [List.cons_append, List.cons.injEq] at h
      obtain ⟨h1, h2⟩ := ih Y' h.2
      exact ⟨by rw [h.1, h1], h2⟩

theorem stripHyphens_data (s : String) :
    (stripHyphens s).data = s.data.filter (fun c => c ≠ '-') := rfl

theorem stripHyphens_of_no_hyphen (s : String) (h : '-' ∉ s.data) : stripHyphens s = s := by
  apply String.ext
  rw [stripHyphens_data, List.filter_eq_self]
  intro c hc
  simp only [ne_eq, decide_not, Bool.not_eq_true', decide_eq_false_iff_not]
  rintro rfl
  exact h hc

theorem colon_not_mem_stripHyphens (s : String) (h : ':' ∉ s.data) :
    ':' ∉ (stripHyphens s).data := by
  rw [stripHyphens_data]
  exact fun hc => h (List.mem_of_mem_filter hc)

theorem GetMainAccount_data (c : Chart) (w : String) :
    (c.GetMainAccount w).data
      = (Address.String c.BasePath).data ++ ':' :: ((stripHyphens w).data ++ ':' :: "main".data) := by
  simp only [Chart.GetMainAccount, Chart.BasePath, Address_String_eq]
  by_cases hp : c.Prefix = ""
  · simp [hp, Join_cons_cons, strings.Join, String.data_append]
    rfl
  · simp [hp, Join_cons_cons, strings.Join, String.data_append]
    rfl

theorem GetHoldAccount_data (c : Chart) (h : String) :
    (c.GetHoldAccount h).data
      = (Address.String c.BasePath).data ++ ':' :: ("holds".data ++ ':' :: (stripHyphens h).data) := by
  simp only [Chart.GetHoldAccount, Chart.BasePath, Address_String_eq]
  by_cases hp : c.Prefix = ""
  · simp [hp, Join_cons_cons, strings.Join, String.data_append]
    rfl
  · simp [hp, Join_cons_cons, strings.Join, String.data_append]
    rfl

theorem BasePath_data_empty (c : Chart) (hp : c.Prefix = "") :
    (Address.String c.BasePath).data = "wallets".data := by
  simp only [Chart.BasePath, Address_String_eq]
  simp [hp, strings.Join]
  rfl

theorem BasePath_data_nonempty (c : Chart) (hp : c.Prefix ≠ "") :
    (Address.String c.BasePath).data
      = (stripHyphens c.Prefix).data ++ ':' :: "wallets".data := by
  simp only [Chart.BasePath, Address_String_eq]
  simp [hp, strings.Join, String.data_append]
  rfl

theorem address_tail_inj (X Y a b a' b' : List Char) (ha : ':' ∉ a) (hb : ':' ∉ b)
    (ha' : ':' ∉ a') (hb' : ':' ∉ b')
    (h : X ++ ':' :: (a ++ ':' :: b) = Y ++ ':' :: (a' ++ ':' :: b')) :
    X = Y ∧ a = a' ∧ b = b' := by
  have h' : (X ++ ':' :: a) ++ ':' :: b = (Y ++ ':' :: a') ++ ':' :: b' := by
    simpa [List.append_assoc] using h
  obtain ⟨h1, h2⟩ := last_segment_inj _ _ _ _ hb hb' h'
  obtain ⟨h3, h4⟩ := last_segment_inj _ _ _ _ ha ha' h1
  exact ⟨h3, h4, h2⟩

theorem BasePath_inj (p q : String)
    (h : (Address.String (NewChart p).BasePath).data = (Address.String (NewChart q).BasePath).data) :
    stripHyphens p = stripHyphens q := by
  have hw : ':' ∉ "wallets".data := by decide
  by_cases hp : p = "" <;> by_cases hq : q = ""
  · rw [hp, hq]
  · rw [BasePath_data_empty _ (by simpa [NewChart] using hp),
      BasePath_data_nonempty _ (by simpa [NewChart] using hq)] at h
    exact absurd (h ▸ (by simp : ':' ∈ (stripHyphens (NewChart q).Prefix).data ++ ':' :: "wallets".data)) hw
  · rw [BasePath_data_nonempty _ (by simpa [NewChart] using hp),
      BasePath_data_empty _ (by simpa [NewChart] using hq)] at h
    exact absurd (h.symm ▸ (by simp : ':' ∈ (stripHyphens (NewChart p).Prefix).data ++ ':' :: "wallets".data)) hw
  · rw [BasePath_data_nonempty _ (by simpa [NewChart] using hp),
      BasePath_data_nonempty _ (by simpa [NewChart] using hq)] at h
    exact String.ext (last_segment_inj _ _ _ _ hw hw h).1

theorem main_eq_main_iff (c : Chart) (x y : String) :
    c.GetMainAccount x = c.GetMainAccount y ↔ stripHyphens x = stripHyphens y := by
  constructor
  · intro h
    have hd := congrArg String.data h
    rw [GetMainAccount_data, GetMainAccount_data] at hd
    have h1 := List.append_cancel_left hd
    simp only [List.cons.injEq, true_and] at h1
    exact String.ext (List.append_cancel_right h1)
  · intro h
    apply String.ext
    rw [GetMainAccount_data, GetMainAccount_data, h]

theorem hold_eq_hold_iff (c : Chart) (x y : String) :
    c.GetHoldAccount x = c.GetHoldAccount y ↔ stripHyphens x = stripHyphens y := by
  constructor
  · intro h
    have hd := congrArg String.data h
    rw [GetHoldAccount_data, GetHoldAccount_data] at hd
    have h1 := List.append_cancel_left hd
    simp only [List.cons.injEq, true_and] at h1
    have h2 := List.append_cancel_left h1
    simp only [List.cons.injEq, true_and] at h2
    exact String.ext h2
  · intro h
    apply String.ext
    rw [GetHoldAccount_data, GetHoldAccount_data, h]

theorem main_eq_hold_iff (c : Chart) (w h : String) :
    c.GetMainAccount w = c.GetHoldAccount h ↔
      (stripHyphens w).data ++ ':' :: "main".data = "holds".data ++ ':' :: (stripHyphens h).data := by
  constructor
  · intro e
    have hd := congrArg String.data e
    rw [GetMainAccount_data, GetHoldAccount_data] at hd
    have h1 := List.append_cancel_left hd
    simpa using h1
  · intro e
    apply String.ext
    rw [GetMainAccount_data, GetHoldAccount_data, e]

theorem holds_prefix_of_eq (sw sh : List Char)
    (e : sw ++ ':' :: "main".data = "holds".data ++ ':' :: sh) :
    sw = "holds".data ∨ "holds:".data <+: sw := by
  have hm : ("main" : String).data = ['m', 'a', 'i', 'n'] := rfl
  have hh : ("holds" : String).data = ['h', 'o', 'l', 'd', 's'] := rfl
  have hh' : ("holds:" : String).data = ['h', 'o', 'l', 'd', 's', ':'] := rfl
  rw [hm, hh] at e
  rw [hh, hh']
  rcases sw with _ | ⟨a, _ | ⟨b, _ | ⟨c, _ | ⟨d, _ | ⟨f, _ | ⟨g, rest⟩⟩⟩⟩⟩⟩ <;>
    simp at e
  · simp [e]
  · right
    obtain ⟨rfl, rfl, rfl, rfl, rfl, rfl, _⟩ := e
    exact ⟨rest, rfl⟩

/-! ## Claims on the address chart -/

/-- C1 (as stated, refuted): the wallet IDs "6f1c-01" and "6f1c01" are distinct and contain
no ':', and so are the hold IDs "a-b" and "ab", yet each pair gets one and the same address. -/
theorem C1_counterexample :
    ("6f1c-01" ≠ "6f1c01" ∧ ':' ∉ "6f1c-01".data ∧ ':' ∉ "6f1c01".data ∧
      (NewChart "tenant").GetMainAccount "6f1c-01" = "tenant:wallets:6f1c01:main" ∧
      (NewChart "tenant").GetMainAccount "6f1c01" = "tenant:wallets:6f1c01:main") ∧
    ("a-b" ≠ "ab" ∧ ':' ∉ "a-b".data ∧ ':' ∉ "ab".data ∧
      (NewChart "tenant").GetHoldAccount "a-b" = "tenant:wallets:holds:ab" ∧
      (NewChart "tenant").GetHoldAccount "ab" = "tenant:wallets:holds:ab") := by
  decide

/-- C1 (amended): for every chart prefix, distinct wallet IDs that contain no hyphen '-' get
distinct main-account addresses, and distinct hold IDs that contain no hyphen get distinct
hold-account addresses. -/
theorem C1_distinct_ids_without_hyphen (p w1 w2 h1 h2 : String)
    (hw1 : '-' ∉ w1.data) (hw2 : '-' ∉ w2.data) (hh1 : '-' ∉ h1.data) (hh2 : '-' ∉ h2.data)
    (hw : w1 ≠ w2) (hh : h1 ≠ h2) :
    (NewChart p).GetMainAccount w1 ≠ (NewChart p).GetMainAccount w2 ∧
    (NewChart p).GetHoldAccount h1 ≠ (NewChart p).GetHoldAccount h2 := by
  constructor
  · intro e
    have := (main_eq_main_iff _ _ _).mp e
    rw [stripHyphens_of_no_hyphen _ hw1, stripHyphens_of_no_hyphen _ hw2] at this
    exact hw this
  · intro e
    have := (hold_eq_hold_iff _ _ _).mp e
    rw [stripHyphens_of_no_hyphen _ hh1, stripHyphens_of_no_hyphen _ hh2] at this
    exact hh this

/-- Witness for C1 (amended) at prefix "tenant", wallet IDs "w1", "w2", hold IDs "h1", "h2". -/
theorem C1_distinct_ids_without_hyphen_witness :
    ('-' ∉ "w1".data ∧ '-' ∉ "w2".data ∧ '-' ∉ "h1".data ∧ '-' ∉ "h2".data ∧
      "w1" ≠ "w2" ∧ "h1" ≠ "h2") ∧
    (NewChart "tenant").GetMainAccount "w1" ≠ (NewChart "tenant").GetMainAccount "w2" ∧
    (NewChart "tenant").GetHoldAccount "h1" ≠ (NewChart "tenant").GetHoldAccount "h2" :=
  ⟨by decide, C1_distinct_ids_without_hyphen "tenant" "w1" "w2" "h1" "h2"
    (by decide) (by decide) (by decide) (by decide) (by decide) (by decide)⟩

/-- C2 (as stated, refuted): on the chart with the empty prefix the main account of wallet
"holds" and the hold account of hold "main" are the same address, "wallets:holds:main"; so are
the main account of wallet "holds:x" and the hold account of hold "x:main". -/
theorem C2_counterexample :
    ((NewChart "").GetMainAccount "holds" = "wallets:holds:main" ∧
      (NewChart "").GetHoldAccount "main" = "wallets:holds:main") ∧
    ((NewChart "").GetMainAccount "holds:x" = "wallets:holds:x:main" ∧
      (NewChart "").GetHoldAccount "x:main" = "wallets:holds:x:main") := by
  decide

/-- C2 (amended): for every chart prefix, every hold ID and every wallet ID that, once its
hyphens are removed, neither is "holds" nor begins with "holds:", the main-account address
differs from the hold-account address. -/
theorem C2_main_ne_hold (p w h : String)
    (hne : stripHyphens w ≠ "holds")
    (hpre : ¬ "holds:".data <+: (stripHyphens w).data) :
    (NewChart p).GetMainAccount w ≠ (NewChart p).GetHoldAccount h := by
  intro e
  rcases holds_prefix_of_eq _ _ ((main_eq_hold_iff _ _ _).mp e) with h1 | h2
  · exact hne (String.ext h1)
  · exact hpre h2

/-- Witness for C2 (amended) at prefix "tenant", wallet ID "6f1c-01", hold ID "main". -/
theorem C2_main_ne_hold_witness :
    (stripHyphens "6f1c-01" ≠ "holds" ∧ ¬ "holds:".data <+: (stripHyphens "6f1c-01").data) ∧
    (NewChart "tenant").GetMainAccount "6f1c-01" ≠ (NewChart "tenant").GetHoldAccount "main" :=
  ⟨by decide, C2_main_ne_hold "tenant" "6f1c-01" "main" (by decide) (by decide)⟩

/-- C3 (as stated, refuted): the prefixes "a-b" and "ab" are distinct, yet their charts give
wallet "x" the same main-account address and hold "x" the same hold-account address; and the
distinct prefixes "" and "wallets" give the wallets "wallets:x" and "x" the same address. -/
theorem C3_counterexample :
    ("a-b" ≠ "ab" ∧
      (NewChart "a-b").GetMainAccount "x" = "ab:wallets:x:main" ∧
      (NewChart "ab").GetMainAccount "x" = "ab:wallets:x:main" ∧
      (NewChart "a-b").GetHoldAccount "x" = "ab:wallets:holds:x" ∧
      (NewChart "ab").GetHoldAccount "x" = "ab:wallets:holds:x") ∧
    ("" ≠ "wallets" ∧
      (NewChart "").GetMainAccount "wallets:x" = "wallets:wallets:x:main" ∧
      (NewChart "wallets").GetMainAccount "x" = "wallets:wallets:x:main") := by
  decide

/-- C3 (amended): for all chart prefixes p1, p2 that still differ once their hyphens are
removed, and all identifiers i1, i2 that contain no ':', no address produced by GetMainAccount
or GetHoldAccount on the chart of p1 equals one produced by GetMainAccount or GetHoldAccount on
the chart of p2. -/
theorem C3_distinct_prefixes (p1 p2 i1 i2 : String)
    (hp : stripHyphens p1 ≠ stripHyphens p2)
    (h1 : ':' ∉ i1.data) (h2 : ':' ∉ i2.data) :
    (NewChart p1).GetMainAccount i1 ≠ (NewChart p2).GetMainAccount i2 ∧
    (NewChart p1).GetMainAccount i1 ≠ (NewChart p2).GetHoldAccount i2 ∧
    (NewChart p1).GetHoldAccount i1 ≠ (NewChart p2).GetMainAccount i2 ∧
    (NewChart p1).GetHoldAccount i1 ≠ (NewChart p2).GetHoldAccount i2 := by
  have s1 := colon_not_mem_stripHyphens _ h1
  have s2 := colon_not_mem_stripHyphens _ h2
  have hm : ':' ∉ "main".data := by decide
  have hh : ':' ∉ "holds".data := by decide
  refine ⟨?_, ?_, ?_, ?_⟩ <;> intro e <;> have hd := congrArg String.data e
  · rw [GetMainAccount_data, GetMainAccount_data] at hd
    exact hp (BasePath_inj _ _ (address_tail_inj _ _ _ _ _ _ s1 hm s2 hm hd).1)
  · rw [GetMainAccount_data, GetHoldAccount_data] at hd
    exact hp (BasePath_inj _ _ (address_tail_inj _ _ _ _ _ _ s1 hm hh s2 hd).1)
  · rw [GetHoldAccount_data, GetMainAccount_data] at hd
    exact hp (BasePath_inj _ _ (address_tail_inj _ _ _ _ _ _ hh s1 s2 hm hd).1)
  · rw [GetHoldAccount_data, GetHoldAccount_data] at hd
    exact hp (BasePath_inj _ _ (address_tail_inj _ _ _ _ _ _ hh s1 hh s2 hd).1)

/-- Witness for C3 (amended) at prefixes "eu", "us" and identifiers "6f1c-01", "holds". -/
theorem C3_distinct_prefixes_witness :
    (stripHyphens "eu" ≠ stripHyphens "us" ∧ ':' ∉ "6f1c-01".data ∧ ':' ∉ "holds".data) ∧
    (NewChart "eu").GetMainAccount "6f1c-01" ≠ (NewChart "us").GetMainAccount "holds" ∧
    (NewChart "eu").GetMainAccount "6f1c-01" ≠ (NewChart "us").GetHoldAccount "holds" ∧
    (NewChart "eu").GetHoldAccount "6f1c-01" ≠ (NewChart "us").GetMainAccount "holds" ∧
    (NewChart "eu").GetHoldAccount "6f1c-01" ≠ (NewChart "us").GetHoldAccount "holds" :=
  ⟨by decide,
    C3_distinct_prefixes "eu" "us" "6f1c-01" "holds" (by decide) (by decide) (by decide)⟩

/-- C4 (as stated, refuted): for the one-segment address ["a:b"] the code returns "a:b", whose
separator comes from inside the segment, while removing the separator from the segment before
joining gives "ab"; and for ["a-b", "c"] the code returns "ab:c" where the claim gives "a-b:c". -/
theorem C4_counterexample :
    Address.String ["a:b"] = "a:b" ∧ joinStrippedOfSeparator ["a:b"] = "ab" ∧
    Address.String ["a-b", "c"] = "ab:c" ∧ joinStrippedOfSeparator ["a-b", "c"] = "a-b:c" := by
  decide

/-- C4 (amended): for every address, Address.String returns the segments joined by ':' after
every hyphen '-' inside each segment has been removed; a ':' inside a segment is kept. -/
theorem C4_String_joins_hyphen_stripped_segments (addr : Address) :
    Address.String addr = strings.Join (addr.map stripHyphens) ":" :=
  Address_String_eq addr

/-- C5: for every prefix and wallet ID, GetMainAccount is the prefix without its hyphens and
a ':' (both omitted when the prefix is empty), then "wallets", a ':', the wallet ID without its
hyphens, a ':' and "main"; that is the segments [prefix, "wallets", walletID, "main"] (prefix
omitted when empty), each stripped of its hyphens, joined by ':'. -/
theorem C5_GetMainAccount_segments (p w : String) :
    (NewChart p).GetMainAccount w
      = (if p = "" then "" else stripHyphens p ++ ":")
          ++ "wallets" ++ ":" ++ stripHyphens w ++ ":" ++ "main" ∧
    (NewChart p).GetMainAccount w
      = String.intercalate ":" ((mainSegments p w).map stripHyphens) := by
  have hd := GetMainAccount_data (NewChart p) w
  by_cases hp : p = ""
  · rw [BasePath_data_empty _ (by simpa [NewChart] using hp)] at hd
    constructor
    · apply String.ext
      rw [hd]
      simp [hp, String.data_append]
    · apply String.ext
      rw [hd]
      simp [hp, mainSegments, String.intercalate, String.intercalate.go, String.data_append]
      rfl
  · rw [BasePath_data_nonempty _ (by simpa [NewChart] using hp)] at hd
    constructor
    · apply String.ext
      rw [hd]
      simp [hp, String.data_append, NewChart]
    · apply String.ext
      rw [hd]
      simp [hp, mainSegments, String.intercalate, String.intercalate.go, String.data_append,
        NewChart]
      rfl

/-- C6: for every prefix and hold ID, GetHoldAccount is the prefix without its hyphens and a
':' (both omitted when the prefix is empty), then "wallets", a ':', "holds", a ':' and the hold
ID without its hyphens; that is the segments [prefix, "wallets", "holds", holdID] (prefix
omitted when empty), each stripped of its hyphens, joined by ':'; no wallet ID takes part in
it. -/
theorem C6_GetHoldAccount_segments (p h : String) :
    (NewChart p).GetHoldAccount h
      = (if p = "" then "" else stripHyphens p ++ ":")
          ++ "wallets" ++ ":" ++ "holds" ++ ":" ++ stripHyphens h ∧
    (NewChart p).GetHoldAccount h
      = String.intercalate ":" ((holdSegments p h).map stripHyphens) := by
  have hd := GetHoldAccount_data (NewChart p) h
  by_cases hp : p = ""
  · rw [BasePath_data_empty _ (by simpa [NewChart] using hp)] at hd
    constructor
    · apply String.ext
      rw [hd]
      simp [hp, String.data_append]
    · apply String.ext
      rw [hd]
      simp [hp, holdSegments, String.intercalate, String.intercalate.go, String.data_append]
      rfl
  · rw [BasePath_data_nonempty _ (by simpa [NewChart] using hp)] at hd
    constructor
    · apply String.ext
      rw [hd]
      simp [hp, String.data_append, NewChart]
    · apply String.ext
      rw [hd]
      simp [hp, holdSegments, String.intercalate, String.intercalate.go, String.data_append,
        NewChart]
      rfl

/-- C10: for every chart prefix and all identifiers x, y, the main accounts of x and y are
equal exactly when x and y are equal after removing all hyphens, and likewise the hold
accounts. -/
theorem C10_collision_iff (p x y : String) :
    ((NewChart p).GetMainAccount x = (NewChart p).GetMainAccount y ↔
      stripHyphens x = stripHyphens y) ∧
    ((NewChart p).GetHoldAccount x = (NewChart p).GetHoldAccount y ↔
      stripHyphens x = stripHyphens y) :=
  ⟨main_eq_main_iff _ x y, hold_eq_hold_iff _ x y⟩

/-! ## Claims on the debit handler -/

theorem errors_Is_iff (target err : GoError) :
    errors.Is err target = true ↔ IsOrWraps target err := by
  induction err with
  | sentinel name =>
    constructor
    · intro h
      have h' : GoError.sentinel name = target := by simpa [errors.Is] using h
      exact h' ▸ IsOrWraps.is
    · intro h
      cases h
      simp [errors.Is]
  | wrap msg inner ih =>
    constructor
    · intro h
      simp only [errors.Is, Bool.or_eq_true, decide_eq_true_eq] at h
      rcases h with h | h
      · exact h ▸ IsOrWraps.is
      · exact IsOrWraps.wraps msg (ih.mp h)
    · intro h
      simp only [errors.Is, Bool.or_eq_true, decide_eq_true_eq]
      cases h with
      | is => exact Or.inl rfl
      | wraps _ h' => exact Or.inr (ih.mpr h')

theorem append_singleton_inj {α : Type} (w : List α) (x y : α) :
    w ++ [x] = w ++ [y] ↔ x = y := by
  simp

/-- C7: when the request binds and Debit returns no error, the handler makes exactly one
write: the 204 `noContent` exactly when Debit returned no hold, the 201 `created` with the hold
as body exactly when Debit returned that hold; so that one write is never an error response. -/
theorem C7_debit_success {DebitRequest Hold : Type} (m : MainHandler DebitRequest Hold)
    (w : ResponseWriter Hold) (r : Request) (data : DebitRequest) (hold : Option Hold)
    (hbind : m.Bind r = .ok data)
    (hdebit : m.funding.Debit { WalletID := chi.URLParam r "walletID", DebitRequest := data }
      = (hold, none)) :
    (m.DebitWalletHandler w r = w ++ [.noContent] ↔ hold = none) ∧
    (∀ h : Hold, m.DebitWalletHandler w r = w ++ [.created h] ↔ hold = some h) ∧
    (∃ x, m.DebitWalletHandler w r = w ++ [x] ∧ (x = .noContent ∨ ∃ h, x = .created h)) := by
  cases hold with
  | none =>
    have hr : m.DebitWalletHandler w r = w ++ [.noContent] := by
      simp [MainHandler.DebitWalletHandler, hbind, hdebit, noContent]
    rw [hr]
    exact ⟨by simp, fun h => by simp, ⟨_, rfl, Or.inl rfl⟩⟩
  | some h0 =>
    have hr : m.DebitWalletHandler w r = w ++ [.created h0] := by
      simp [MainHandler.DebitWalletHandler, hbind, hdebit, created]
    rw [hr]
    refine ⟨by simp, fun h => ?_, ⟨_, rfl, Or.inr ⟨h0, rfl⟩⟩⟩
    rw [append_singleton_inj]
    constructor
    · intro e; cases e; rfl
    · intro e; cases e; rfl

/-- C8: when the request binds and Debit returns an error, the handler makes exactly one write:
the bad-request response with `ErrorCodeInsufficientFund` and `wallet.ErrInsufficientFundError`
exactly when the error is or wraps `wallet.ErrInsufficientFundError`, the internal-error
response with the error otherwise; that write is neither the 204 nor the 201 response; and
`ErrorCodeInsufficientFund` differs from the `ErrorCodeValidation` a bind failure is answered
with. -/
theorem C8_debit_failure {DebitRequest Hold : Type} (m : MainHandler DebitRequest Hold)
    (w : ResponseWriter Hold) (r : Request) (data : DebitRequest) (hold : Option Hold)
    (err : GoError)
    (hbind : m.Bind r = .ok data)
    (hdebit : m.funding.Debit { WalletID := chi.URLParam r "walletID", DebitRequest := data }
      = (hold, some err)) :
    (m.DebitWalletHandler w r
        = w ++ [.badRequest ErrorCodeInsufficientFund wallet.ErrInsufficientFundError] ↔
      IsOrWraps wallet.ErrInsufficientFundError err) ∧
    (¬ IsOrWraps wallet.ErrInsufficientFundError err →
      m.DebitWalletHandler w r = w ++ [.internalError err]) ∧
    (∃ x, m.DebitWalletHandler w r = w ++ [x] ∧ x ≠ .noContent ∧ ∀ h, x ≠ .created h) ∧
    (∀ (r' : Request) (e : GoError), m.Bind r' = .error e →
      m.DebitWalletHandler w r' = w ++ [.badRequest ErrorCodeValidation e]) ∧
    ErrorCodeInsufficientFund ≠ ErrorCodeValidation := by
  have hbindfail : ∀ (r' : Request) (e : GoError), m.Bind r' = .error e →
      m.DebitWalletHandler w r' = w ++ [.badRequest ErrorCodeValidation e] := by
    intro r' e he
    simp [MainHandler.DebitWalletHandler, he, badRequest]
  by_cases his : errors.Is err wallet.ErrInsufficientFundError = true
  · have hr : m.DebitWalletHandler w r
        = w ++ [.badRequest ErrorCodeInsufficientFund wallet.ErrInsufficientFundError] := by
      simp [MainHandler.DebitWalletHandler, hbind, hdebit, his, badRequest]
    have hw := (errors_Is_iff _ _).mp his
    rw [hr]
    exact ⟨⟨fun _ => hw, fun _ => rfl⟩, fun hn => absurd hw hn,
      ⟨_, rfl, by simp, fun h => by simp⟩, hbindfail, by decide⟩
  · have hr : m.DebitWalletHandler w r = w ++ [.internalError err] := by
      simp [MainHandler.DebitWalletHandler, hbind, hdebit, his, internalError]
    have hw : ¬ IsOrWraps wallet.ErrInsufficientFundError err :=
      fun h => his ((errors_Is_iff _ _).mpr h)
    rw [hr]
    exact ⟨⟨fun e => by simp at e, fun h => absurd h hw⟩, fun _ => rfl,
      ⟨_, rfl, by simp, fun h => by simp⟩, hbindfail, by decide⟩

/-- Witness for C7: on the sample handler a "pending" debit of wallet "w1" binds, Debit returns
the hold "hold-of-w1" without error, and the claim holds there. -/
theorem C7_debit_success_witness :
    sampleHandler.Bind (sampleRequest "pending") = .ok "pending" ∧
    sampleHandler.funding.Debit
      { WalletID := chi.URLParam (sampleRequest "pending") "walletID", DebitRequest := "pending" }
      = (some "hold-of-w1", none) ∧
    ((sampleHandler.DebitWalletHandler [] (sampleRequest "pending") = [] ++ [.noContent] ↔
        some "hold-of-w1" = none) ∧
      (∀ h : String, sampleHandler.DebitWalletHandler [] (sampleRequest "pending")
        = [] ++ [.created h] ↔ some "hold-of-w1" = some h) ∧
      (∃ x, sampleHandler.DebitWalletHandler [] (sampleRequest "pending") = [] ++ [x] ∧
        (x = .noContent ∨ ∃ h, x = .created h))) :=
  ⟨rfl, by decide,
    C7_debit_success sampleHandler [] (sampleRequest "pending") "pending" (some "hold-of-w1")
      rfl (by decide)⟩

/-- Witness for C8: on the sample handler a "too-much" debit of wallet "w1" binds, Debit fails
with an error wrapping `wallet.ErrInsufficientFundError`, and the claim holds there. -/
theorem C8_debit_failure_witness :
    sampleHandler.Bind (sampleRequest "too-much") = .ok "too-much" ∧
    sampleHandler.funding.Debit
      { WalletID := chi.URLParam (sampleRequest "too-much") "walletID",
        DebitRequest := "too-much" }
      = (none, some (.wrap "running script" wallet.ErrInsufficientFundError)) ∧
    sampleHandler.DebitWalletHandler [] (sampleRequest "too-much")
      = [.badRequest ErrorCodeInsufficientFund wallet.ErrInsufficientFundError] :=
  ⟨rfl, by decide,
    (C8_debit_failure sampleHandler [] (sampleRequest "too-much") "too-much" none
      (.wrap "running script" wallet.ErrInsufficientFundError) rfl (by decide)).1.mpr
      (IsOrWraps.wraps _ IsOrWraps.is)⟩

/-! ## Claims on the confirm-hold operation -/

